import Mathlib

/-!
Verification of the session-ledger and payroll logic of the
soma-billing-dashboard repository (`billing_logic.py`).

The record store backing the Google-Sheets worksheet is modelled as a list
of `Rec` values (one per data row, in sheet order, every cell a string, the
header row fixed to the `COLUMNS` layout the code itself enforces).  Python
strings are Lean `String`s, with the handful of Python string primitives
the code uses (`strip`, `lower`, `startswith`, `split`, `replace`,
`int(...)`, `float(...)`, `strptime`/`isoformat`) re-implemented below over
character lists.  Python's binary floating point is modelled by `ℚ`, with
2-decimal rounding made explicit as `roundq2`.
-/

namespace Billing

/-! ## Python string primitives -/

/-- The whitespace characters Python's `str.strip` removes. -/
def isSpaceChar (c : Char) : Bool :=
  c.toNat = 32 ∨ c.toNat = 9 ∨ c.toNat = 10 ∨ c.toNat = 13 ∨ c.toNat = 11 ∨ c.toNat = 12

def dropLeading : List Char → List Char
  | [] => []
  | c :: cs => if isSpaceChar c then dropLeading cs else c :: cs

/-- Python `s.strip()`. -/
def pyStrip (s : String) : String :=
  ⟨(dropLeading (dropLeading s.data.reverse).reverse)⟩

/-- ASCII lowercasing of one character (Python `str.lower` on the data at hand). -/
def lowerChar (c : Char) : Char :=
  if 65 ≤ c.toNat ∧ c.toNat ≤ 90 then Char.ofNat (c.toNat + 32) else c

/-- Python `s.lower()`. -/
def pyLower (s : String) : String := ⟨s.data.map lowerChar⟩

def listStartsWith : List Char → List Char → Bool
  | _, [] => true
  | [], _ :: _ => false
  | c :: cs, p :: ps => c = p ∧ listStartsWith cs ps

/-- Python `s.startswith(p)`. -/
def pyStartsWith (s p : String) : Bool := listStartsWith s.data p.data

/-- Python `c in s` for one character. -/
def pyHasChar (s : String) (c : Char) : Bool := s.data.contains c

def splitAtFirst (t : Char) : List Char → List Char × List Char
  | [] => ([], [])
  | c :: cs =>
    if c = t then ([], cs)
    else
      let p := splitAtFirst t cs
      (c :: p.1, p.2)

/-- Python `s.split(t, 1)` when `t` is known to occur in `s`. -/
def pySplitFirst (s : String) (t : Char) : String × String :=
  let p := splitAtFirst t s.data
  (⟨p.1⟩, ⟨p.2⟩)

def splitOnChar (t : Char) : List Char → List (List Char)
  | [] => [[]]
  | c :: cs =>
    let r := splitOnChar t cs
    if c = t then [] :: r
    else
      match r with
      | [] => [[c]]
      | g :: gs => (c :: g) :: gs

/-- Python `s.replace(c, r)` for a one-character pattern (all occurrences). -/
def pyReplaceChar (s : String) (c : Char) (r : String) : String :=
  ⟨(s.data.map fun x => if x = c then r.data else [x]).flatten⟩

/-! ## Decimal digits, integer and float parsing, number printing -/

def isDigitChar (c : Char) : Bool := 48 ≤ c.toNat ∧ c.toNat ≤ 57

def natOfDigits (l : List Char) : ℕ :=
  l.foldl (fun acc c => 10 * acc + (c.toNat - 48)) 0

def digitChar : ℕ → Char
  | 0 => '0' | 1 => '1' | 2 => '2' | 3 => '3' | 4 => '4'
  | 5 => '5' | 6 => '6' | 7 => '7' | 8 => '8' | _ => '9'

def natCharsAux : ℕ → ℕ → List Char
  | 0, _ => []
  | fuel+1, n => if n < 10 then [digitChar n] else natCharsAux fuel (n / 10) ++ [digitChar (n % 10)]

/-- Decimal rendering of a natural number (Python `str`/`"{}"` on a non-negative int). -/
def natStr (n : ℕ) : String := ⟨natCharsAux (n + 1) n⟩

/-- Decimal rendering of an integer (Python `str(i)`). -/
def intStr (i : ℤ) : String := (if i < 0 then "-" else "") ++ natStr i.natAbs

/-- Python `int(s)` on the forms the app can meet: optional surrounding
whitespace, an optional sign, then decimal digits. -/
def parseInt? (s : String) : Option ℤ :=
  match (pyStrip s).data with
  | [] => none
  | '+' :: ds => if ds ≠ [] ∧ ds.all isDigitChar then some (natOfDigits ds : ℤ) else none
  | '-' :: ds => if ds ≠ [] ∧ ds.all isDigitChar then some (-(natOfDigits ds : ℤ)) else none
  | ds => if ds.all isDigitChar then some (natOfDigits ds : ℤ) else none

/-- Value of an unsigned decimal literal `a.b` (either side may be empty). -/
def decimalVal (a b : List Char) : ℚ :=
  (natOfDigits a : ℚ) + (natOfDigits b : ℚ) / (10 : ℚ) ^ b.length

/-- Python `float(s)` on plain decimal literals: optional surrounding
whitespace, optional sign, digits with at most one point and at least one
digit.  (Exponent and `inf`/`nan` forms never arise in this app's data.) -/
def parseFloat? (s : String) : Option ℚ :=
  let core : List Char → Option ℚ := fun ds =>
    if pyHasChar ⟨ds⟩ '.' then
      let p := splitAtFirst '.' ds
      if (p.1 ++ p.2) ≠ [] ∧ p.1.all isDigitChar ∧ p.2.all isDigitChar then
        some (decimalVal p.1 p.2)
      else none
    else if ds ≠ [] ∧ ds.all isDigitChar then some (natOfDigits ds : ℚ)
    else none
  match (pyStrip s).data with
  | [] => none
  | '+' :: ds => core ds
  | '-' :: ds => (core ds).map Neg.neg
  | ds => core ds

/-- Python `float(x or 0)`: a blank cell is the falsy `""`, giving `0.0`. -/
def numField (s : String) : Option ℚ :=
  if s = "" then some 0 else parseFloat? s

/-! ## 2-decimal rounding and `%.2f` formatting -/

/-- Python `round(x, 2)` (the app's money values never sit on a rounding
tie, so the tie-breaking rule is immaterial). -/
def roundq2 (x : ℚ) : ℚ := (round (x * 100) : ℚ) / 100

/-- Python `f"{x:.2f}"` on a value already rounded to 2 decimals. -/
def format2 (q : ℚ) : String :=
  let c : ℤ := round (q * 100)
  (if c < 0 then "-" else "") ++ natStr (c.natAbs / 100) ++ "." ++
    (if c.natAbs % 100 < 10 then "0" else "") ++ natStr (c.natAbs % 100)

/-! ## Dates: `datetime.strptime(_, "%Y-%m-%d").date()`, `isoformat`, `timedelta` -/

structure PyDate where
  year : ℕ
  month : ℕ
  day : ℕ
deriving DecidableEq

def isLeap (y : ℕ) : Bool := (y % 4 = 0 ∧ y % 100 ≠ 0) ∨ y % 400 = 0

def daysInMonth (y m : ℕ) : ℕ :=
  if m = 2 then (if isLeap y then 29 else 28)
  else if m = 4 ∨ m = 6 ∨ m = 9 ∨ m = 11 then 30
  else 31

/-- `datetime.strptime(s, "%Y-%m-%d").date()`: three dash-separated digit
groups (year up to 4 digits, month and day up to 2), a real calendar date. -/
def parseDateIso (s : String) : Option PyDate :=
  match splitOnChar '-' s.data with
  | [y, m, d] =>
    if y ≠ [] ∧ y.length ≤ 4 ∧ y.all isDigitChar ∧
       m ≠ [] ∧ m.length ≤ 2 ∧ m.all isDigitChar ∧
       d ≠ [] ∧ d.length ≤ 2 ∧ d.all isDigitChar then
      let yn := natOfDigits y
      let mn := natOfDigits m
      let dn := natOfDigits d
      if 1 ≤ yn ∧ 1 ≤ mn ∧ mn ≤ 12 ∧ 1 ≤ dn ∧ dn ≤ daysInMonth yn mn then
        some ⟨yn, mn, dn⟩
      else none
    else none
  | _ => none

def pad2 (n : ℕ) : String := (if n < 10 then "0" else "") ++ natStr n

def pad4 (n : ℕ) : String :=
  (if n < 10 then "000" else if n < 100 then "00" else if n < 1000 then "0" else "") ++ natStr n

/-- Python `date.isoformat()`. -/
def isoformat (d : PyDate) : String := pad4 d.year ++ "-" ++ pad2 d.month ++ "-" ++ pad2 d.day

def prevDay (d : PyDate) : PyDate :=
  if 2 ≤ d.day then ⟨d.year, d.month, d.day - 1⟩
  else if 2 ≤ d.month then ⟨d.year, d.month - 1, daysInMonth d.year (d.month - 1)⟩
  else ⟨d.year - 1, 12, 31⟩

/-- `d - timedelta(days=n)`. -/
def subDays : PyDate → ℕ → PyDate
  | d, 0 => d
  | d, n + 1 => subDays (prevDay d) n

/-- Python `date` comparison: lexicographic on (year, month, day). -/
def dateLe (a b : PyDate) : Bool :=
  a.year < b.year ∨ (a.year = b.year ∧
    (a.month < b.month ∨ (a.month = b.month ∧ a.day ≤ b.day)))

/-! ## Static rate tables and enumerations (`billing_logic.py` constants) -/

def MODES : List String := ["Online", "In-Person"]

/-- `LEGACY_RATES`: flat hourly rate per service. -/
def LEGACY_RATES (service : String) : Option ℚ :=
  if service = "K–12 Tutoring" then some 25
  else if service = "SAT & ACT Prep" then some 35
  else if service = "College & AP Courses" then some 30
  else none

/-- `NEW_RATES`: mode-specific hourly rate per service. -/
def NEW_RATES (service mode : String) : Option ℚ :=
  if service = "K–12 Tutoring" then
    (if mode = "Online" then some 30 else if mode = "In-Person" then some 40 else none)
  else if service = "SAT & ACT Prep" then
    (if mode = "Online" then some 35 else if mode = "In-Person" then some 45 else none)
  else if service = "College & AP Courses" then
    (if mode = "Online" then some 40 else if mode = "In-Person" then some 50 else none)
  else none

/-! ## The record store -/

/-- One data row of the `sessions` worksheet, under the `COLUMNS` header the
code enforces.  Every cell is a string, exactly as the sheet stores it. -/
structure Rec where
  id : String := ""
  student_name : String := ""
  date : String := ""
  minutes : String := ""
  hours_decimal : String := ""
  service : String := ""
  mode : String := ""
  tutor : String := ""
  notes : String := ""
  rate_tier : String := ""
  rate : String := ""
  amount_due : String := ""
  paid_status : String := ""
deriving DecidableEq

/-! ## Duration parsing (`parse_duration`) -/

/-- `parse_duration(minutes_text, hhmm_text)`; `none` models the raised
`ValueError` (including an unparsable integer component). -/
def parse_duration (minutes_text hhmm_text : String) : Option ℤ :=
  let mt := pyStrip minutes_text
  let ht := pyStrip hhmm_text
  if mt ≠ "" ∧ ht ≠ "" then none
  else if mt = "" ∧ ht = "" then none
  else if mt ≠ "" then
    match parseInt? mt with
    | none => none
    | some m => if m ≤ 0 then none else some m
  else if ¬ pyHasChar ht ':' then none
  else
    let p := pySplitFirst ht ':'
    match parseInt? p.1, parseInt? p.2 with
    | some h, some m =>
      if ¬ (0 ≤ m ∧ m < 60) then none
      else
        let total := h * 60 + m
        if total ≤ 0 then none else some total
    | _, _ => none

/-! ## Rates and pricing (`hours_from_minutes`, `get_rate_for_student`, `append_session`) -/

/-- `hours_from_minutes(total_minutes)` = `round(total_minutes / 60.0, 2)`. -/
def hours_from_minutes (total_minutes : ℤ) : ℚ := roundq2 ((total_minutes : ℚ) / 60)

/-- `get_rate_for_student`: `(tier, hourly_rate)`; `none` models the
`KeyError` on an unknown service or mode. -/
def get_rate_for_student (student_name service_name mode_name : String)
    (legacy_clients : List String) : Option (String × ℚ) :=
  let legacy_lower := legacy_clients.map fun x => pyLower (pyStrip x)
  if pyLower (pyStrip student_name) ∈ legacy_lower then
    (LEGACY_RATES service_name).map fun r => ("Legacy", r)
  else
    (NEW_RATES service_name mode_name).map fun r => ("New", r)

/-- The dict `append_session` returns. -/
structure PricingResult where
  tier : String
  hourly_rate : ℚ
  amount_due : ℚ
  tutor_pay : ℚ
  notes : String
deriving DecidableEq

/-- `append_session(ws, student, date_iso, minutes, service, mode, tutor,
paid_status, legacy_clients)`: `none` models a raised `ValueError`; on
success, the pricing result and the store with the new row appended. -/
def append_session (store : List Rec) (student date_iso : String) (minutes : ℤ)
    (service mode tutor paid_status : String) (legacy_clients : List String) :
    Option (PricingResult × List Rec) :=
  if (LEGACY_RATES service).isSome = false then none
  else if mode ∉ MODES then none
  else if student = "" then none
  else if tutor = "" then none
  else
    let hours_decimal := hours_from_minutes minutes
    match get_rate_for_student student service mode legacy_clients with
    | none => none
    | some (tier, hourly_rate) =>
      let full_amount := roundq2 (hours_decimal * hourly_rate)
      let ps := pyStrip (if paid_status = "" then "Not Paid" else paid_status)
      let is_free := pyStartsWith (pyLower ps) "free"
      let amount_due := if is_free then 0 else full_amount
      let tutor_pay :=
        if tutor = "Nitin" then amount_due
        else if is_free then roundq2 (full_amount / 2)
        else roundq2 (amount_due / 2)
      let notes := "Pay " ++ tutor ++ " $" ++ format2 tutor_pay
      let serial :=
        (store.countP fun r =>
          r.date = date_iso ∧ pyLower (pyStrip r.student_name) = pyLower student) + 1
      let rid := pyReplaceChar date_iso '-' "" ++ "-" ++
        pyReplaceChar (pyLower student) ' ' "_" ++ "-" ++ natStr serial
      let newRec : Rec :=
        { id := rid
          student_name := student
          date := date_iso
          minutes := intStr minutes
          hours_decimal := format2 hours_decimal
          service := service
          mode := mode
          tutor := tutor
          notes := notes
          rate_tier := tier
          rate := format2 hourly_rate
          amount_due := format2 amount_due
          paid_status := ps }
      some (⟨tier, hourly_rate, amount_due, tutor_pay, notes⟩, store ++ [newRec])

/-! ## Unpaid sessions (`list_unpaid_sessions`) -/

/-- One element of the list `list_unpaid_sessions` returns. -/
structure UnpaidEntry where
  id : String
  student_name : String
  date : String
  service : String
  tutor : String
  amount_due : ℚ
  paid_status : String
deriving DecidableEq

/-- The dict built for one kept record (`amount_due` falls back to `0.0`
when the cell fails to parse, `paid_status` carries the stripped raw text). -/
def mkUnpaidEntry (r : Rec) : UnpaidEntry :=
  { id := r.id
    student_name := r.student_name
    date := r.date
    service := r.service
    tutor := r.tutor
    amount_due := (numField r.amount_due).getD 0
    paid_status := pyStrip r.paid_status }

/-- `list_unpaid_sessions(ws)`, with the loop's two `continue` filters. -/
def list_unpaid_sessions : List Rec → List UnpaidEntry
  | [] => []
  | r :: rs =>
    let status := pyLower (pyStrip r.paid_status)
    if status = "paid" ∨ status = "free session" then list_unpaid_sessions rs
    else if ¬ (status = "not paid" ∨ status = "unpaid" ∨ status = "") then
      list_unpaid_sessions rs
    else mkUnpaidEntry r :: list_unpaid_sessions rs

/-! ## Marking a session paid (`mark_session_paid_by_id`) -/

/-- `(cell or "").strip().lower() in ("paid", "free session")`. -/
def settledStatus (s : String) : Bool :=
  pyLower (pyStrip s) = "paid" ∨ pyLower (pyStrip s) = "free session"

/-- The row loop of `mark_session_paid_by_id`: the first row whose stripped
`id` matches decides the outcome (the function returns there), later rows
are never reached. -/
def markPaidScan (sid : String) : List Rec → ℕ × List Rec
  | [] => (0, [])
  | r :: rs =>
    if pyStrip r.id = sid then
      if settledStatus r.paid_status then (0, r :: rs)
      else (1, { r with paid_status := "Paid" } :: rs)
    else
      let p := markPaidScan sid rs
      (p.1, r :: p.2)

/-- `mark_session_paid_by_id(ws, session_id)`: the updated-row count and the
store after the call. -/
def mark_session_paid_by_id (store : List Rec) (session_id : String) : ℕ × List Rec :=
  let sid := pyStrip session_id
  if sid = "" then (0, store) else markPaidScan sid store

/-! ## Weekly payroll (`_week_range_from_sunday`, `compute_weekly_tutor_totals`) -/

/-- `_week_range_from_sunday(sunday_iso)`; `none` models the `ValueError`
`strptime` raises on a malformed date. -/
def week_range_from_sunday (sunday_iso : String) : Option (String × String) :=
  (parseDateIso sunday_iso).map fun sunday =>
    (isoformat (subDays sunday 6), isoformat sunday)

/-- The value `compute_weekly_tutor_totals` returns; `stop` is the dict key
`"end"` (a Lean keyword), `totals` the insertion-ordered per-tutor dict. -/
structure WeeklyTotals where
  start : String
  stop : String
  totals : List (String × ℚ)
deriving DecidableEq

/-- `totals[tutor] = totals.get(tutor, 0.0) + x`: an existing key keeps its
position, a new key goes to the end. -/
def addTotal (ts : List (String × ℚ)) (t : String) (x : ℚ) : List (String × ℚ) :=
  if ts.any fun p => p.1 = t then
    ts.map fun p => if p.1 = t then (p.1, p.2 + x) else p
  else ts ++ [(t, x)]

/-- One iteration of the record loop of `compute_weekly_tutor_totals`, with
its `continue` filters (blank/owner tutor, blank or unparsable date, date
outside the window, unparsable numeric cell). -/
def weeklyStep (startD endD : PyDate) (ts : List (String × ℚ)) (r : Rec) :
    List (String × ℚ) :=
  let tutor := pyStrip r.tutor
  if tutor = "" ∨ tutor = "Nitin" then ts
  else
    let date_str := pyStrip r.date
    if date_str = "" then ts
    else
      match parseDateIso date_str with
      | none => ts
      | some d =>
        if ¬ (dateLe startD d ∧ dateLe d endD) then ts
        else
          match numField r.hours_decimal, numField r.rate, numField r.amount_due with
          | some hours_decimal, some rate, some amount_due =>
            let paid_status := pyLower (pyStrip r.paid_status)
            let is_free := pyStartsWith paid_status "free"
            let full_value := hours_decimal * rate
            let tutor_earn := if is_free then 0.5 * full_value else 0.5 * amount_due
            addTotal ts tutor tutor_earn
          | _, _, _ => ts

/-- `compute_weekly_tutor_totals(ws, sunday_iso)` (the code re-parses the
two isoformatted window bounds before comparing dates). -/
def compute_weekly_tutor_totals (store : List Rec) (sunday_iso : String) :
    Option WeeklyTotals :=
  match week_range_from_sunday sunday_iso with
  | none => none
  | some (start_iso, end_iso) =>
    match parseDateIso start_iso, parseDateIso end_iso with
    | some startD, some endD =>
      some { start := start_iso, stop := end_iso,
             totals := store.foldl (weeklyStep startD endD) [] }
    | _, _ => none

/-! ## Flipping the week's notes to paid (`mark_tutor_notes_paid`) -/

/-- The row loop of `mark_tutor_notes_paid`.  Under the
`r_notes.startswith("Pay ")` guard, `r_notes.replace("Pay ", "Paid ", 1)`
replaces exactly the 4-character leading prefix, hence
`"Paid " ++ drop 4`.  The cell is overwritten with the stripped, rewritten
text. -/
def notesScan (startD endD : PyDate) : List Rec → ℕ × List Rec
  | [] => (0, [])
  | r :: rs =>
    let p := notesScan startD endD rs
    let r_date := pyStrip r.date
    let r_notes := pyStrip r.notes
    if r_date = "" then (p.1, r :: p.2)
    else
      match parseDateIso r_date with
      | none => (p.1, r :: p.2)
      | some d =>
        if ¬ (dateLe startD d ∧ dateLe d endD) then (p.1, r :: p.2)
        else if pyStartsWith r_notes "Pay " then
          (p.1 + 1, { r with notes := "Paid " ++ (⟨r_notes.data.drop 4⟩ : String) } :: p.2)
        else (p.1, r :: p.2)

/-- `mark_tutor_notes_paid(ws, sunday_iso)`: the updated-row count and the
store after the call; `none` models the `ValueError` on a malformed
`sunday_iso`. -/
def mark_tutor_notes_paid (store : List Rec) (sunday_iso : String) :
    Option (ℕ × List Rec) :=
  match week_range_from_sunday sunday_iso with
  | none => none
  | some (start_iso, end_iso) =>
    match parseDateIso start_iso, parseDateIso end_iso with
    | some startD, some endD => some (notesScan startD endD store)
    | _, _ => none

/-! ## Named pricing components (the quantities `append_session` computes) -/

/-- `(paid_status or "Not Paid").strip()`. -/
def psOf (paid_status : String) : String :=
  pyStrip (if paid_status = "" then "Not Paid" else paid_status)

/-- `paid_status.lower().startswith("free")` after the blank default. -/
def isFreeOf (paid_status : String) : Bool :=
  pyStartsWith (pyLower (psOf paid_status)) "free"

/-- `full_amount = round(hours_decimal * rate, 2)`. -/
def full_amount_of (minutes : ℤ) (rate : ℚ) : ℚ :=
  roundq2 (hours_from_minutes minutes * rate)

/-- `amount_due`: `0` when free, else the full amount. -/
def amount_due_of (minutes : ℤ) (rate : ℚ) (paid_status : String) : ℚ :=
  if isFreeOf paid_status then 0 else full_amount_of minutes rate

/-- `tutor_pay`: owner passthrough, else half of full value (free) or half
of the amount due (not free). -/
def tutor_pay_of (minutes : ℤ) (rate : ℚ) (tutor paid_status : String) : ℚ :=
  if tutor = "Nitin" then amount_due_of minutes rate paid_status
  else if isFreeOf paid_status then roundq2 (full_amount_of minutes rate / 2)
  else roundq2 (amount_due_of minutes rate paid_status / 2)

/-- The serial as the code computes it: the stored `student_name` is
stripped before the case-insensitive comparison. -/
def code_serial (store : List Rec) (student date_iso : String) : ℕ :=
  (store.countP fun r =>
    r.date = date_iso ∧ pyLower (pyStrip r.student_name) = pyLower student) + 1

/-- The id string built from a serial. -/
def mkId (student date_iso : String) (serial : ℕ) : String :=
  pyReplaceChar date_iso '-' "" ++ "-" ++
    pyReplaceChar (pyLower student) ' ' "_" ++ "-" ++ natStr serial

/-- The row `append_session` appends. -/
def mkRow (student date_iso : String) (minutes : ℤ) (service mode tutor paid_status : String)
    (tier : String) (rate : ℚ) (serial : ℕ) : Rec :=
  { id := mkId student date_iso serial
    student_name := student
    date := date_iso
    minutes := intStr minutes
    hours_decimal := format2 (hours_from_minutes minutes)
    service := service
    mode := mode
    tutor := tutor
    notes := "Pay " ++ tutor ++ " $" ++ format2 (tutor_pay_of minutes rate tutor paid_status)
    rate_tier := tier
    rate := format2 rate
    amount_due := format2 (amount_due_of minutes rate paid_status)
    paid_status := psOf paid_status }

/-! ## Claim-side reference definitions (worded from the specification) -/

/-- The serial exactly as claim C4 words it: 1 plus the number of existing
records whose `date` equals `date_iso` and whose `student_name`
case-insensitively equals the given student (no trimming of the stored
name). -/
def claim_serial (store : List Rec) (student date_iso : String) : ℕ :=
  (store.countP fun r => r.date = date_iso ∧ pyLower r.student_name = pyLower student) + 1

/-- The id claim C4 predicts. -/
def claim_id (store : List Rec) (student date_iso : String) : String :=
  mkId student date_iso (claim_serial store student date_iso)

/-- Membership test of `list_unpaid` as claim C7 words it: the trimmed,
lowercased status is one of `""`, `"not paid"`, `"unpaid"`. -/
def unpaidKeep (r : Rec) : Bool :=
  pyLower (pyStrip r.paid_status) = "" ∨ pyLower (pyStrip r.paid_status) = "not paid" ∨
    pyLower (pyStrip r.paid_status) = "unpaid"

/-- A record of the weekly window `[startD, endD]` that claims C2/C6 range
over: its stripped date parses and falls inside the window. -/
def inWindow (startD endD : PyDate) (r : Rec) : Bool :=
  match parseDateIso (pyStrip r.date) with
  | some d => dateLe startD d && dateLe d endD
  | none => false

/-- A record `mark_week_notes_paid` rewrites: in the window, trimmed notes
beginning with `"Pay "`. -/
def noteEligible (startD endD : PyDate) (r : Rec) : Bool :=
  inWindow startD endD r && pyStartsWith (pyStrip r.notes) "Pay "

/-- The rewritten record: the `"Pay "` prefix of the trimmed notes becomes
`"Paid "`, the remainder kept verbatim. -/
def rewriteNote (r : Rec) : Rec :=
  { r with notes := "Paid " ++ (⟨(pyStrip r.notes).data.drop 4⟩ : String) }

/-- A record claim C6 includes: non-blank, non-owner tutor, date in the
window. -/
def weeklyEligible (startD endD : PyDate) (r : Rec) : Bool :=
  !(pyStrip r.tutor == "") && !(pyStrip r.tutor == "Nitin") && inWindow startD endD r

/-- All three numeric cells of the record parse (`float` succeeds). -/
def recNumsOk (r : Rec) : Bool :=
  (numField r.hours_decimal).isSome && (numField r.rate).isSome &&
    (numField r.amount_due).isSome

/-- The contribution claim C6 assigns to an eligible record: half the full
value when the status starts with "free", else half the amount due. -/
def spec_contrib (r : Rec) : ℚ :=
  if pyStartsWith (pyLower (pyStrip r.paid_status)) "free" then
    0.5 * ((numField r.hours_decimal).getD 0 * (numField r.rate).getD 0)
  else 0.5 * (numField r.amount_due).getD 0

/-- First-match lookup in the totals dict, `0` for an absent tutor. -/
def lookupTotal : List (String × ℚ) → String → ℚ
  | [], _ => 0
  | p :: ps, t => if p.1 = t then p.2 else lookupTotal ps t

/-! ## Theorems -/

/-- C7: `list_unpaid_sessions` keeps exactly the records whose trimmed,
lowercased `paid_status` is one of `""`, `"not paid"`, `"unpaid"` (any
other value, e.g. `"weird_value"`, is excluded), and each kept entry
carries the stored `amount_due` parsed as a number, `0` when parsing
fails — `mkUnpaidEntry` sets `amount_due := (numField r.amount_due).getD 0`. -/
theorem list_unpaid_filter_spec (store : List Rec) :
    list_unpaid_sessions store = (store.filter unpaidKeep).map mkUnpaidEntry := by
  induction store with
  | nil => rfl
  | cons r rs ih =>
    have hkeep : unpaidKeep r =
        (pyLower (pyStrip r.paid_status) = "" ∨ pyLower (pyStrip r.paid_status) = "not paid" ∨
          pyLower (pyStrip r.paid_status) = "unpaid" : Bool) := rfl
    by_cases h1 : pyLower (pyStrip r.paid_status) = "paid" ∨
        pyLower (pyStrip r.paid_status) = "free session"
    · have hk : unpaidKeep r = false := by
        rw [hkeep]
        rcases h1 with h | h <;> rw [h] <;> decide
      simp only [list_unpaid_sessions, if_pos h1, List.filter_cons, hk, ih]
      simp
    · by_cases h2 : pyLower (pyStrip r.paid_status) = "not paid" ∨
          pyLower (pyStrip r.paid_status) = "unpaid" ∨ pyLower (pyStrip r.paid_status) = ""
      · have hk : unpaidKeep r = true := by rw [hkeep]; simp; tauto
        simp only [list_unpaid_sessions, if_neg h1, List.filter_cons, hk, ih]
        simp
        tauto
      · have hk : unpaidKeep r = false := by
          rw [hkeep]; simp; push_neg at h2; tauto
        simp only [list_unpaid_sessions, if_neg h1, List.filter_cons, hk, ih]
        simp [h2]

/-- C9: `parse_duration` fails when both inputs are non-empty after
trimming and when both are empty; with only minutes it returns the parsed
integer exactly when positive; with only an `H:MM` string it fails without
a colon or with a minute part outside `[0, 60)`, and otherwise returns
`h * 60 + m` exactly when that total is positive. -/
theorem parse_duration_cases (a b : String) :
    (pyStrip a ≠ "" → pyStrip b ≠ "" → parse_duration a b = none) ∧
    (pyStrip a = "" → pyStrip b = "" → parse_duration a b = none) ∧
    (pyStrip a ≠ "" → pyStrip b = "" → ∀ m, parseInt? (pyStrip a) = some m →
      parse_duration a b = if 0 < m then some m else none) ∧
    (pyStrip a ≠ "" → pyStrip b = "" → parseInt? (pyStrip a) = none →
      parse_duration a b = none) ∧
    (pyStrip a = "" → pyStrip b ≠ "" → pyHasChar (pyStrip b) ':' = false →
      parse_duration a b = none) ∧
    (pyStrip a = "" → pyStrip b ≠ "" → pyHasChar (pyStrip b) ':' = true →
      ∀ h m, parseInt? (pySplitFirst (pyStrip b) ':').1 = some h →
        parseInt? (pySplitFirst (pyStrip b) ':').2 = some m →
        parse_duration a b =
          if 0 ≤ m ∧ m < 60 then
            (if 0 < h * 60 + m then some (h * 60 + m) else none)
          else none) := by
  refine ⟨?_, ?_, ?_, ?_, ?_, ?_⟩
  · intro ha hb
    simp [parse_duration, ha, hb]
  · intro ha hb
    simp [parse_duration, ha, hb]
  · intro ha hb m hm
    have he : parse_duration a b = if m ≤ 0 then none else some m := by
      simp [parse_duration, ha, hb, hm]
    rw [he]
    split_ifs <;> first | rfl | omega
  · intro ha hb hm
    simp only [parse_duration]
    simp [ha, hb, hm]
  · intro ha hb hc
    simp only [parse_duration]
    simp [ha, hb, hc]
  · intro ha hb hc h m hh hm
    have he : parse_duration a b =
        if ¬ (0 ≤ m ∧ m < 60) then none
        else if h * 60 + m ≤ 0 then none else some (h * 60 + m) := by
      simp [parse_duration, ha, hb, hc, hh, hm]
    rw [he]
    split_ifs <;> first | rfl | omega

/-- Witness for C9: `parse_duration "60" "" = some 60` via the
minutes-only clause of `parse_duration_cases` at a concrete input. -/
theorem parse_duration_cases_witness : parse_duration "60" "" = some 60 := by
  have h := (parse_duration_cases "60" "").2.2.1 (by decide) (by decide) 60 (by decide)
  simpa using h

lemma markPaidScan_append (sid : String) (pre rest : List Rec)
    (hpre : ∀ p ∈ pre, pyStrip p.id ≠ sid) :
    markPaidScan sid (pre ++ rest) =
      ((markPaidScan sid rest).1, pre ++ (markPaidScan sid rest).2) := by
  induction pre with
  | nil => simp
  | cons p ps ih =>
    have hp : pyStrip p.id ≠ sid := hpre p (List.mem_cons_self p ps)
    have ih' := ih fun q hq => hpre q (List.mem_cons_of_mem p hq)
    simp only [List.cons_append, markPaidScan, if_neg hp]
    rw [List.append_eq, ih']

lemma markPaidScan_nomatch (sid : String) (l : List Rec)
    (h : ∀ p ∈ l, pyStrip p.id ≠ sid) :
    markPaidScan sid l = (0, l) := by
  induction l with
  | nil => rfl
  | cons p ps ih =>
    have hp : pyStrip p.id ≠ sid := h p (List.mem_cons_self p ps)
    have ih' := ih fun q hq => h q (List.mem_cons_of_mem p hq)
    simp only [markPaidScan, if_neg hp, ih']

lemma markPaidScan_le_one (sid : String) (l : List Rec) :
    (markPaidScan sid l).1 ≤ 1 := by
  induction l with
  | nil => simp [markPaidScan]
  | cons p ps ih =>
    simp only [markPaidScan]
    split_ifs <;> simp [ih]

/-- C5: marking an unsettled record paid by its (non-blank) id — it being
the first record carrying that id — sets its status to `"Paid"` and
returns 1; the repeated call returns 0 and changes nothing; a call with an
id matching no record, or whose first matching record is already settled,
returns 0 and leaves the store untouched. -/
theorem mark_session_paid_idempotent
    (pre post : List Rec) (rec : Rec)
    (hpre : ∀ p ∈ pre, pyStrip p.id ≠ pyStrip rec.id)
    (hid : pyStrip rec.id ≠ "")
    (hunset : settledStatus rec.paid_status = false) :
    mark_session_paid_by_id (pre ++ rec :: post) rec.id
        = (1, pre ++ { rec with paid_status := "Paid" } :: post) ∧
    mark_session_paid_by_id (pre ++ { rec with paid_status := "Paid" } :: post) rec.id
        = (0, pre ++ { rec with paid_status := "Paid" } :: post) ∧
    (∀ sid, (∀ r ∈ pre ++ rec :: post, pyStrip r.id ≠ pyStrip sid) →
        mark_session_paid_by_id (pre ++ rec :: post) sid = (0, pre ++ rec :: post)) ∧
    (∀ rec2 : Rec, settledStatus rec2.paid_status = true →
        (∀ p ∈ pre, pyStrip p.id ≠ pyStrip rec2.id) → pyStrip rec2.id ≠ "" →
        mark_session_paid_by_id (pre ++ rec2 :: post) rec2.id = (0, pre ++ rec2 :: post)) := by
  refine ⟨?_, ?_, ?_, ?_⟩
  · simp only [mark_session_paid_by_id, if_neg hid,
      markPaidScan_append _ _ _ hpre, markPaidScan, if_pos rfl, hunset]
    simp
  · have hid' : pyStrip ({ rec with paid_status := "Paid" } : Rec).id ≠ "" := hid
    have hpre' : ∀ p ∈ pre, pyStrip p.id ≠ pyStrip ({ rec with paid_status := "Paid" } : Rec).id :=
      hpre
    have hset : settledStatus ({ rec with paid_status := "Paid" } : Rec).paid_status = true := by
      show settledStatus "Paid" = true
      decide
    simp only [mark_session_paid_by_id, if_neg hid',
      markPaidScan_append _ _ _ hpre', markPaidScan, if_pos rfl, hset]
    simp
  · intro sid hall
    by_cases hz : pyStrip sid = ""
    · simp [mark_session_paid_by_id, hz]
    · simp only [mark_session_paid_by_id, if_neg hz,
        markPaidScan_nomatch _ _ hall]
  · intro rec2 hset hpre2 hid2
    simp only [mark_session_paid_by_id, if_neg hid2,
      markPaidScan_append _ _ _ hpre2, markPaidScan, if_pos rfl, hset]
    simp

/-- Witness for C5 at a one-record store. -/
theorem mark_session_paid_idempotent_witness :
    mark_session_paid_by_id [{ id := "s1", paid_status := "Not Paid" }] "s1"
        = (1, [{ id := "s1", paid_status := "Paid" }]) ∧
    mark_session_paid_by_id [{ id := "s1", paid_status := "Paid" }] "s1"
        = (0, [{ id := "s1", paid_status := "Paid" }]) := by
  have h := mark_session_paid_idempotent [] [] { id := "s1", paid_status := "Not Paid" }
    (by simp) (by decide) (by decide)
  exact ⟨h.1, h.2.1⟩

/-- C10: when several records carry the same id, `mark_session_paid_by_id`
examines only the first matching record: everything before it and
everything after it — later duplicates included — is returned unchanged,
at most that first record's `paid_status` is rewritten, and the count is
never more than 1. -/
theorem mark_session_paid_first_match_only
    (pre post : List Rec) (rec : Rec) (sid : String)
    (hpre : ∀ p ∈ pre, pyStrip p.id ≠ pyStrip sid)
    (hmatch : pyStrip rec.id = pyStrip sid)
    (hsid : pyStrip sid ≠ "") :
    (mark_session_paid_by_id (pre ++ rec :: post) sid).1 ≤ 1 ∧
    (mark_session_paid_by_id (pre ++ rec :: post) sid).2 =
      pre ++ (if settledStatus rec.paid_status then rec
              else { rec with paid_status := "Paid" }) :: post := by
  have hstep : markPaidScan (pyStrip sid) (rec :: post) =
      if settledStatus rec.paid_status then (0, rec :: post)
      else (1, { rec with paid_status := "Paid" } :: post) := by
    simp only [markPaidScan, if_pos hmatch]
  constructor
  · simp only [mark_session_paid_by_id, if_neg hsid]
    exact markPaidScan_le_one _ _
  · simp only [mark_session_paid_by_id, if_neg hsid,
      markPaidScan_append _ _ _ hpre, hstep]
    split_ifs <;> simp

/-- Witness for C10 at a store holding two records with the same id. -/
theorem mark_session_paid_first_match_only_witness :
    (mark_session_paid_by_id
        [{ id := "x", paid_status := "Not Paid" },
         { id := "x", paid_status := "Not Paid" }] "x").1 ≤ 1 ∧
    (mark_session_paid_by_id
        [{ id := "x", paid_status := "Not Paid" },
         { id := "x", paid_status := "Not Paid" }] "x").2 =
      [] ++ (if settledStatus ({ id := "x", paid_status := "Not Paid" } : Rec).paid_status
             then ({ id := "x", paid_status := "Not Paid" } : Rec)
             else { ({ id := "x", paid_status := "Not Paid" } : Rec) with paid_status := "Paid" })
          :: [{ id := "x", paid_status := "Not Paid" }] :=
  mark_session_paid_first_match_only [] [{ id := "x", paid_status := "Not Paid" }]
    { id := "x", paid_status := "Not Paid" } "x" (by simp) (by decide) (by decide)

lemma parseDateIso_empty : parseDateIso "" = none := rfl

lemma notesScan_eq (startD endD : PyDate) (store : List Rec) :
    notesScan startD endD store =
      ((store.filter (noteEligible startD endD)).length,
       store.map fun r => if noteEligible startD endD r then rewriteNote r else r) := by
  induction store with
  | nil => rfl
  | cons r rs ih =>
    simp only [notesScan, ih, List.filter_cons, List.map_cons]
    by_cases hd : pyStrip r.date = ""
    · have he : noteEligible startD endD r = false := by
        simp [noteEligible, inWindow, hd, parseDateIso_empty]
      simp [hd, he]
    · rcases hp : parseDateIso (pyStrip r.date) with _ | d
      · have he : noteEligible startD endD r = false := by
          simp [noteEligible, inWindow, hp]
        simp [hd, hp, he]
      · by_cases hw : dateLe startD d && dateLe d endD
        · by_cases hs : pyStartsWith (pyStrip r.notes) "Pay "
          · have he : noteEligible startD endD r = true := by
              simp [noteEligible, inWindow, hp, hw, hs]
            simp [hd, hp, hw, hs, he, rewriteNote]
            simpa using hw
          · have he : noteEligible startD endD r = false := by
              simp [noteEligible, inWindow, hp, hs]
            simp [hd, hp, hw, hs, he]
        · have he : noteEligible startD endD r = false := by
            simp [noteEligible, inWindow, hp]
            intro h1 h2
            simp [h1, h2] at hw
          simp [hd, hp, hw, he]
          intro h1 h2
          simp [h1, h2] at hw

/-- Counterexample for C2: a record of the owner tutor `"Nitin"` inside
the week window whose notes start with `"Pay "` IS rewritten by
`mark_tutor_notes_paid` and IS counted — the code never looks at the
`tutor` column, contradicting the claim that an owner record in the window
is never modified. -/
theorem mark_week_notes_owner_counterexample :
    mark_tutor_notes_paid
        [{ date := "2025-03-05", tutor := "Nitin", notes := "Pay Nitin $10.00" }]
        "2025-03-09" =
      some (1, [{ date := "2025-03-05", tutor := "Nitin", notes := "Paid Nitin $10.00" }]) := by
  decide

/-- C2 (amended): for a valid `sunday_iso` parsing to `sd`,
`mark_tutor_notes_paid` rewrites the leading `"Pay "` of the trimmed notes
to `"Paid "` for every record whose date lies in `[sd - 6 days, sd]` and
whose trimmed notes begin with `"Pay "`, regardless of the record's tutor
(the owner included); the remainder of the trimmed note is preserved
verbatim (`rewriteNote`), every other record is unchanged, and the count
is the number of records so rewritten. -/
theorem mark_week_notes_paid_spec (store : List Rec) (sunday_iso : String) (sd : PyDate)
    (h : parseDateIso sunday_iso = some sd)
    (h6 : parseDateIso (isoformat (subDays sd 6)) = some (subDays sd 6))
    (h0 : parseDateIso (isoformat sd) = some sd) :
    mark_tutor_notes_paid store sunday_iso =
      some ((store.filter (noteEligible (subDays sd 6) sd)).length,
        store.map fun r => if noteEligible (subDays sd 6) sd r then rewriteNote r else r) := by
  simp only [mark_tutor_notes_paid, week_range_from_sunday, h, Option.map_some', h6, h0,
    notesScan_eq]

/-- Witness for C2's amended theorem at a concrete week and store. -/
theorem mark_week_notes_paid_spec_witness :
    mark_tutor_notes_paid
        [{ date := "2025-03-05", tutor := "Aryan", notes := "Pay Aryan $17.50" },
         { date := "2025-02-01", tutor := "Aryan", notes := "Pay Aryan $5.00" }]
        "2025-03-09" =
      some ((List.filter (noteEligible (subDays ⟨2025, 3, 9⟩ 6) ⟨2025, 3, 9⟩)
              [{ date := "2025-03-05", tutor := "Aryan", notes := "Pay Aryan $17.50" },
               { date := "2025-02-01", tutor := "Aryan", notes := "Pay Aryan $5.00" }]).length,
        List.map
          (fun r => if noteEligible (subDays ⟨2025, 3, 9⟩ 6) ⟨2025, 3, 9⟩ r
                    then rewriteNote r else r)
          [{ date := "2025-03-05", tutor := "Aryan", notes := "Pay Aryan $17.50" },
           { date := "2025-02-01", tutor := "Aryan", notes := "Pay Aryan $5.00" }]) :=
  mark_week_notes_paid_spec
    [{ date := "2025-03-05", tutor := "Aryan", notes := "Pay Aryan $17.50" },
     { date := "2025-02-01", tutor := "Aryan", notes := "Pay Aryan $5.00" }]
    "2025-03-09" ⟨2025, 3, 9⟩ (by decide) (by decide) (by decide)

lemma lookupTotal_absent (ts : List (String × ℚ)) (t : String)
    (h : ts.all fun p => p.1 ≠ t) : lookupTotal ts t = 0 := by
  induction ts with
  | nil => rfl
  | cons p ps ih =>
    simp only [List.all_cons, Bool.and_eq_true, decide_eq_true_eq] at h
    simp only [lookupTotal, if_neg h.1]
    exact ih (by simpa using h.2)

lemma lookupTotal_map_add (ts : List (String × ℚ)) (t tq : String) (x : ℚ) :
    lookupTotal (ts.map fun p => if p.1 = t then (p.1, p.2 + x) else p) tq =
      lookupTotal ts tq +
        (if tq = t ∧ (ts.any fun p => p.1 = tq) then x else 0) := by
  induction ts with
  | nil => simp [lookupTotal]
  | cons p ps ih =>
    by_cases hq : p.1 = tq
    · by_cases ht : p.1 = t
      · have htq : tq = t := hq ▸ ht
        simp [lookupTotal, ht, hq, htq]
      · have htq : ¬ (tq = t) := fun hh => ht (hq.trans hh)
        simp [lookupTotal, ht, hq, htq]
    · have hhead : ((if p.1 = t then (p.1, p.2 + x) else p) : String × ℚ).1 = p.1 := by
        split_ifs <;> rfl
      simp only [List.map_cons, lookupTotal, hhead, if_neg hq, ih, List.any_cons]
      have hd : (decide (p.1 = tq)) = false := by simp [hq]
      have hcond : (tq = t ∧ (ps.any fun p => decide (p.1 = tq)) = true) ↔
          (tq = t ∧ (decide (p.1 = tq) || ps.any fun p => decide (p.1 = tq)) = true) := by
        rw [hd, Bool.false_or]
      exact congrArg (fun z => lookupTotal ps tq + z) (if_congr hcond rfl rfl)

lemma lookupTotal_append_single (ts : List (String × ℚ)) (t tq : String) (x : ℚ)
    (h : ts.all fun p => p.1 ≠ tq) :
    lookupTotal (ts ++ [(t, x)]) tq = if t = tq then x else 0 := by
  induction ts with
  | nil => simp [lookupTotal]
  | cons p ps ih =>
    simp only [List.all_cons, Bool.and_eq_true, decide_eq_true_eq] at h
    simp only [List.cons_append, lookupTotal, if_neg h.1]
    exact ih (by simpa using h.2)

lemma lookupTotal_append_single_ne (ts : List (String × ℚ)) (t tq : String) (x : ℚ)
    (h : tq ≠ t) :
    lookupTotal (ts ++ [(t, x)]) tq = lookupTotal ts tq := by
  induction ts with
  | nil =>
    simp [lookupTotal]
    exact fun hh => absurd hh.symm h
  | cons p ps ih =>
    by_cases hq : p.1 = tq <;> simp [lookupTotal, hq, ih]

lemma lookupTotal_addTotal (ts : List (String × ℚ)) (t tq : String) (x : ℚ) :
    lookupTotal (addTotal ts t x) tq =
      lookupTotal ts tq + (if tq = t then x else 0) := by
  by_cases hmem : ts.any fun p => p.1 = t
  · rw [addTotal, if_pos hmem, lookupTotal_map_add]
    by_cases htq : tq = t
    · simp [htq, hmem]
    · simp [htq]
  · rw [addTotal, if_neg hmem]
    by_cases htq : tq = t
    · subst htq
      have habs : ts.all fun p => p.1 ≠ tq := by
        simp only [List.any_eq_true, decide_eq_true_eq, not_exists, not_and] at hmem
        simp only [List.all_eq_true, decide_eq_true_eq]
        exact fun p hp => hmem p hp
      rw [lookupTotal_append_single ts tq tq x habs, lookupTotal_absent ts tq habs]
      simp
    · rw [lookupTotal_append_single_ne ts t tq x htq]
      simp [htq]

lemma weeklyStep_eq (startD endD : PyDate) (ts : List (String × ℚ)) (r : Rec)
    (hok : weeklyEligible startD endD r = true → recNumsOk r = true) :
    weeklyStep startD endD ts r =
      if weeklyEligible startD endD r then
        addTotal ts (pyStrip r.tutor) (spec_contrib r)
      else ts := by
  by_cases ht : pyStrip r.tutor = "" ∨ pyStrip r.tutor = "Nitin"
  · have he : weeklyEligible startD endD r = false := by
      rcases ht with h | h <;> simp [weeklyEligible, h]
    simp [weeklyStep, ht, he]
  · push_neg at ht
    by_cases hd : pyStrip r.date = ""
    · have he : weeklyEligible startD endD r = false := by
        simp [weeklyEligible, inWindow, hd, parseDateIso_empty]
      have ht' : ¬ (pyStrip r.tutor = "" ∨ pyStrip r.tutor = "Nitin") := by tauto
      simp [weeklyStep, ht', hd, he]
    · rcases hp : parseDateIso (pyStrip r.date) with _ | d
      · have he : weeklyEligible startD endD r = false := by
          simp [weeklyEligible, inWindow, hp]
        have ht' : ¬ (pyStrip r.tutor = "" ∨ pyStrip r.tutor = "Nitin") := by tauto
        simp [weeklyStep, ht', hd, hp, he]
      · by_cases hw : (dateLe startD d && dateLe d endD) = true
        · have he : weeklyEligible startD endD r = true := by
            simp [weeklyEligible, inWindow, hp, hw, ht.1, ht.2]
          have hnums := hok he
          simp only [recNumsOk, Bool.and_eq_true, Option.isSome_iff_exists] at hnums
          obtain ⟨⟨⟨hh, hhe⟩, ⟨rt, hrt⟩⟩, ⟨ad, had⟩⟩ := hnums
          have ht' : ¬ (pyStrip r.tutor = "" ∨ pyStrip r.tutor = "Nitin") := by tauto
          have hw' := hw
          simp only [Bool.and_eq_true] at hw'
          simp [weeklyStep, ht', hd, hp, hw, hhe, hrt, had, he, spec_contrib]
          intro himp
          exact absurd (himp hw'.1) (by simp [hw'.2])
        · have he : weeklyEligible startD endD r = false := by
            simp only [weeklyEligible, inWindow, hp, hw, Bool.and_eq_false_iff]
            simp [hw]
          have ht' : ¬ (pyStrip r.tutor = "" ∨ pyStrip r.tutor = "Nitin") := by tauto
          simp [weeklyStep, ht', hd, hp, hw, he]
          intro h1 h2
          simp [h1, h2] at hw

lemma weekly_foldl (startD endD : PyDate) (records : List Rec) :
    ∀ ts : List (String × ℚ),
      (∀ r ∈ records, weeklyEligible startD endD r = true → recNumsOk r = true) →
      ∀ t, lookupTotal (records.foldl (weeklyStep startD endD) ts) t =
        lookupTotal ts t +
          ((records.filter fun r => weeklyEligible startD endD r &&
              (pyStrip r.tutor == t)).map spec_contrib).sum := by
  induction records with
  | nil =>
    intro ts _ t
    simp
  | cons r rs ih =>
    intro ts hnum t
    rw [List.foldl_cons, weeklyStep_eq startD endD ts r (hnum r (List.mem_cons_self r rs))]
    have hnum' : ∀ q ∈ rs, weeklyEligible startD endD q = true → recNumsOk q = true :=
      fun q hq => hnum q (List.mem_cons_of_mem r hq)
    by_cases he : weeklyEligible startD endD r = true
    · rw [if_pos he, ih _ hnum' t, lookupTotal_addTotal]
      by_cases htt : pyStrip r.tutor = t
      · have hcond : (weeklyEligible startD endD r && (pyStrip r.tutor == t)) = true := by
          simp [he, htt]
        rw [if_pos htt.symm]
        simp only [List.filter_cons, hcond, if_true, List.map_cons, List.sum_cons]
        ring
      · have hcond : (weeklyEligible startD endD r && (pyStrip r.tutor == t)) = false := by
          simp [htt]
        have hne : ¬ (t = pyStrip r.tutor) := fun hh => htt hh.symm
        rw [if_neg hne]
        simp only [List.filter_cons, hcond, Bool.false_eq_true, if_false]
        ring
    · have hcond : (weeklyEligible startD endD r && (pyStrip r.tutor == t)) = false := by
        simp only [Bool.and_eq_false_iff]
        left
        simpa using he
      rw [if_neg he, ih _ hnum' t]
      simp only [List.filter_cons, hcond, Bool.false_eq_true, if_false]

/-- C6: for a valid Sunday `sunday_iso` parsing to `sd`, and a store whose
eligible records carry parsable numeric cells, `compute_weekly_tutor_totals`
returns the window bounds `isoformat (sd - 6 days)` and `isoformat sd`, and
a totals mapping in which each tutor's value sums `0.5 * (hours_decimal *
rate)` over their free records and `0.5 * amount_due` over their non-free
records, taken over exactly the records whose date lies in the inclusive
window and whose trimmed tutor is non-blank and not the owner `"Nitin"`. -/
theorem weekly_tutor_totals_spec (store : List Rec) (sunday_iso : String) (sd : PyDate)
    (h : parseDateIso sunday_iso = some sd)
    (h6 : parseDateIso (isoformat (subDays sd 6)) = some (subDays sd 6))
    (h0 : parseDateIso (isoformat sd) = some sd)
    (hnum : ∀ r ∈ store, weeklyEligible (subDays sd 6) sd r = true → recNumsOk r = true) :
    ∃ totals, compute_weekly_tutor_totals store sunday_iso =
        some { start := isoformat (subDays sd 6), stop := isoformat sd, totals := totals } ∧
      ∀ t, lookupTotal totals t =
        ((store.filter fun r => weeklyEligible (subDays sd 6) sd r &&
            (pyStrip r.tutor == t)).map spec_contrib).sum := by
  refine ⟨store.foldl (weeklyStep (subDays sd 6) sd) [], ?_, ?_⟩
  · simp only [compute_weekly_tutor_totals, week_range_from_sunday, h, Option.map_some', h6, h0]
  · intro t
    rw [weekly_foldl (subDays sd 6) sd store [] hnum t]
    simp [lookupTotal]

/-- Witness for C6 at a concrete store and week. -/
theorem weekly_tutor_totals_spec_witness :
    ∃ totals, compute_weekly_tutor_totals
        [{ date := "2025-03-05", tutor := "Aryan", hours_decimal := "1.00",
           rate := "35.00", amount_due := "35.00", paid_status := "Not Paid" }]
        "2025-03-09" =
      some { start := isoformat (subDays ⟨2025, 3, 9⟩ 6), stop := isoformat ⟨2025, 3, 9⟩,
             totals := totals } ∧
      ∀ t, lookupTotal totals t =
        ((List.filter
            (fun r => weeklyEligible (subDays ⟨2025, 3, 9⟩ 6) ⟨2025, 3, 9⟩ r &&
              (pyStrip r.tutor == t))
            [{ date := "2025-03-05", tutor := "Aryan", hours_decimal := "1.00",
               rate := "35.00", amount_due := "35.00", paid_status := "Not Paid" }]).map
          spec_contrib).sum :=
  weekly_tutor_totals_spec
    [{ date := "2025-03-05", tutor := "Aryan", hours_decimal := "1.00",
       rate := "35.00", amount_due := "35.00", paid_status := "Not Paid" }]
    "2025-03-09" ⟨2025, 3, 9⟩ (by decide) (by decide) (by decide) (by decide)

lemma mem_MODES {mode : String} (hm : mode ∈ MODES) :
    mode = "Online" ∨ mode = "In-Person" := by
  simpa [ MODES] using hm

lemma NEW_RATES_isSome (service mode : String)
    (hs : (LEGACY_RATES service).isSome = true) (hm : mode ∈ MODES) :
    (NEW_RATES service mode).isSome = true := by
  rcases mem_MODES hm with h | h <;> subst h <;>
    · unfold LEGACY_RATES at hs
      unfold NEW_RATES
      split_ifs at hs ⊢ <;> simp_all

lemma get_rate_some (student service mode : String) (legacy : List String)
    (hs : (LEGACY_RATES service).isSome = true) (hm : mode ∈ MODES) :
    ∃ tier rate, get_rate_for_student student service mode legacy = some (tier, rate) := by
  unfold get_rate_for_student
  by_cases hmem : pyLower (pyStrip student) ∈ legacy.map fun x => pyLower (pyStrip x)
  · rw [if_pos hmem]
    rcases Option.isSome_iff_exists.1 hs with ⟨r, hr⟩
    exact ⟨"Legacy", r, by simp [hr]⟩
  · rw [if_neg hmem]
    rcases Option.isSome_iff_exists.1 (NEW_RATES_isSome service mode hs hm) with ⟨r, hr⟩
    exact ⟨"New", r, by simp [hr]⟩

/-- Full characterization of a successful `append_session` call in terms of
the named pricing components. -/
lemma append_session_eq (store : List Rec) (student date_iso : String) (minutes : ℤ)
    (service mode tutor paid_status : String) (legacy : List String)
    (tier : String) (rate : ℚ)
    (hr : get_rate_for_student student service mode legacy = some (tier, rate))
    (hs : (LEGACY_RATES service).isSome = true) (hm : mode ∈ MODES)
    (hstu : student ≠ "") (htut : tutor ≠ "") :
    append_session store student date_iso minutes service mode tutor paid_status legacy =
      some (⟨tier, rate, amount_due_of minutes rate paid_status,
              tutor_pay_of minutes rate tutor paid_status,
              "Pay " ++ tutor ++ " $" ++ format2 (tutor_pay_of minutes rate tutor paid_status)⟩,
        store ++ [mkRow student date_iso minutes service mode tutor paid_status tier rate
          (code_serial store student date_iso)]) := by
  simp only [append_session, hs, hr, if_neg hstu, if_neg htut]
  have hm' : ¬ (mode ∉ MODES) := not_not_intro hm
  simp only [if_neg hm', Bool.true_eq_false, if_false]
  rfl

/-- C1: for every successfully priced session (`paid_status` defaulted to
`"Not Paid"` when blank; `isFreeOf` = the trimmed status case-insensitively
starts with `"free"`): `amount_due` is `0` when free and otherwise
`round(round(minutes/60, 2) * rate, 2)`; `tutor_pay` equals `amount_due`
when the tutor is the owner `"Nitin"`, and otherwise is
`round(full_amount/2, 2)` when free and `round(amount_due/2, 2)` when not
free. -/
theorem append_session_pricing (store : List Rec) (student date_iso : String) (minutes : ℤ)
    (service mode tutor paid_status : String) (legacy : List String)
    (hs : (LEGACY_RATES service).isSome = true) (hm : mode ∈ MODES)
    (hstu : student ≠ "") (htut : tutor ≠ "") :
    ∃ tier rate res store',
      get_rate_for_student student service mode legacy = some (tier, rate) ∧
      append_session store student date_iso minutes service mode tutor paid_status legacy =
        some (res, store') ∧
      (isFreeOf paid_status = true → res.amount_due = 0) ∧
      (isFreeOf paid_status = false →
        res.amount_due = roundq2 (hours_from_minutes minutes * rate)) ∧
      (tutor = "Nitin" → res.tutor_pay = res.amount_due) ∧
      (tutor ≠ "Nitin" → res.tutor_pay =
        if isFreeOf paid_status then
          roundq2 (roundq2 (hours_from_minutes minutes * rate) / 2)
        else roundq2 (res.amount_due / 2)) := by
  obtain ⟨tier, rate, hr⟩ := get_rate_some student service mode legacy hs hm
  refine ⟨tier, rate, _, _, hr,
    append_session_eq store student date_iso minutes service mode tutor paid_status legacy
      tier rate hr hs hm hstu htut, ?_, ?_, ?_, ?_⟩
  · intro hf
    simp [amount_due_of, hf]
  · intro hf
    simp [amount_due_of, full_amount_of, hf]
  · intro hn
    simp [tutor_pay_of, hn]
  · intro hn
    by_cases hf : isFreeOf paid_status = true
    · simp [tutor_pay_of, full_amount_of, hn, hf]
    · simp only [Bool.not_eq_true] at hf
      simp [tutor_pay_of, hn, hf]

/-- Witness for C1 at the spec's free-session example. -/
theorem append_session_pricing_witness :
    ∃ tier rate res store',
      get_rate_for_student "Sam" "SAT & ACT Prep" "Online" [] = some (tier, rate) ∧
      append_session [] "Sam" "2025-03-01" 60 "SAT & ACT Prep" "Online" "Aryan" "Free session" [] =
        some (res, store') ∧
      (isFreeOf "Free session" = true → res.amount_due = 0) ∧
      (isFreeOf "Free session" = false →
        res.amount_due = roundq2 (hours_from_minutes 60 * rate)) ∧
      ("Aryan" = "Nitin" → res.tutor_pay = res.amount_due) ∧
      ("Aryan" ≠ "Nitin" → res.tutor_pay =
        if isFreeOf "Free session" then
          roundq2 (roundq2 (hours_from_minutes 60 * rate) / 2)
        else roundq2 (res.amount_due / 2)) :=
  append_session_pricing [] "Sam" "2025-03-01" 60 "SAT & ACT Prep" "Online" "Aryan"
    "Free session" [] (by decide) (by decide) (by decide) (by decide)

/-- Counterexample for C3: a whitespace-only student name passes the
code's emptiness check (`if not student`, no trimming) — the call
succeeds and appends a record whose `student_name` is `" "`, where the
claim demands a validation error and no appended record. -/
theorem append_session_whitespace_counterexample :
    ((append_session [] " " "2025-03-01" 60 "K–12 Tutoring" "Online" "Aryan" "Not Paid" []).map
        fun p => p.2.map Rec.student_name) = some [" "] := by
  rw [append_session_eq [] " " "2025-03-01" 60 "K–12 Tutoring" "Online" "Aryan" "Not Paid" []
    "New" 30 (by decide) (by decide) (by decide) (by decide) (by decide)]
  rfl

/-- C3 (amended): `append_session` fails with a validation error and
appends nothing exactly when the student or the tutor is the empty string;
the check does not trim, so a whitespace-only student or tutor passes
validation and one record is appended. -/
theorem append_session_empty_check (store : List Rec) (student date_iso : String) (minutes : ℤ)
    (service mode tutor paid_status : String) (legacy : List String)
    (hs : (LEGACY_RATES service).isSome = true) (hm : mode ∈ MODES) :
    (student = "" ∨ tutor = "" →
      append_session store student date_iso minutes service mode tutor paid_status legacy
        = none) ∧
    (student ≠ "" → tutor ≠ "" →
      ∃ res r, append_session store student date_iso minutes service mode tutor paid_status legacy
          = some (res, store ++ [r]) ∧
        r.student_name = student ∧ r.tutor = tutor) := by
  constructor
  · intro h
    have hm' : ¬ (mode ∉ MODES) := not_not_intro hm
    rcases h with h | h
    · simp [append_session, hs, hm', h]
    · subst h
      by_cases hstu : student = "" <;> simp [append_session, hs, hm', hstu]
  · intro hstu htut
    obtain ⟨tier, rate, hr⟩ := get_rate_some student service mode legacy hs hm
    exact ⟨_, _,
      append_session_eq store student date_iso minutes service mode tutor paid_status legacy
        tier rate hr hs hm hstu htut, rfl, rfl⟩

/-- Witness for C3's amended theorem: a whitespace-only student (and a
whitespace-only tutor) is appended, and an empty student is refused. -/
theorem append_session_empty_check_witness :
    (" " = "" ∨ " " = "" →
      append_session [] " " "2025-03-01" 60 "K–12 Tutoring" "Online" " " "Not Paid" [] = none) ∧
    (" " ≠ "" → " " ≠ "" →
      ∃ res r, append_session [] " " "2025-03-01" 60 "K–12 Tutoring" "Online" " " "Not Paid" []
          = some (res, [] ++ [r]) ∧
        r.student_name = " " ∧ r.tutor = " ") :=
  append_session_empty_check [] " " "2025-03-01" 60 "K–12 Tutoring" "Online" " " "Not Paid" []
    (by decide) (by decide)

/-- Counterexample for C4: the code strips the stored `student_name`
before the case-insensitive comparison, the claim does not.  With an
existing record whose `student_name` is `"alex "` (trailing blank) on the
same date, appending `"alex"` yields the id `"20250301-alex-2"`, while the
claim's serial counts no matching record and predicts `"20250301-alex-1"`. -/
theorem append_session_serial_counterexample :
    ((append_session [{ student_name := "alex ", date := "2025-03-01" }]
        "alex" "2025-03-01" 60 "K–12 Tutoring" "Online" "Aryan" "Not Paid" []).map
      fun p => p.2.map Rec.id) = some ["", "20250301-alex-2"] ∧
    claim_id [{ student_name := "alex ", date := "2025-03-01" }] "alex" "2025-03-01"
      = "20250301-alex-1" ∧
    ("20250301-alex-2" : String) ≠ "20250301-alex-1" := by
  refine ⟨?_, by decide, by decide⟩
  rw [append_session_eq [{ student_name := "alex ", date := "2025-03-01" }]
    "alex" "2025-03-01" 60 "K–12 Tutoring" "Online" "Aryan" "Not Paid" []
    "New" 30 (by decide) (by decide) (by decide) (by decide) (by decide)]
  decide

/-- C4 (amended): the appended record's id is
`<date_iso without dashes>-<student lowercased, blanks to underscores>-<serial>`
with serial = 1 + the number of existing records whose `date` equals
`date_iso` and whose TRIMMED `student_name` case-insensitively equals the
given student (`code_serial`); for a student name already trimmed, a
second consecutive append for the same student and date gets the next
serial, so starting from no matching records the two ids end in `-1` and
`-2` in call order. -/
theorem append_session_id_spec (store : List Rec) (student date_iso : String)
    (minutes minutes2 : ℤ) (service mode tutor paid_status : String) (legacy : List String)
    (hs : (LEGACY_RATES service).isSome = true) (hm : mode ∈ MODES)
    (hstu : student ≠ "") (htut : tutor ≠ "") :
    ∃ res r store2 res2 r2,
      append_session store student date_iso minutes service mode tutor paid_status legacy
        = some (res, store ++ [r]) ∧
      r.id = mkId student date_iso (code_serial store student date_iso) ∧
      (pyStrip student = student →
        append_session (store ++ [r]) student date_iso minutes2 service mode tutor paid_status
            legacy = some (res2, store2) ∧
        store2 = (store ++ [r]) ++ [r2] ∧
        r2.id = mkId student date_iso (code_serial store student date_iso + 1)) := by
  obtain ⟨tier, rate, hr⟩ := get_rate_some student service mode legacy hs hm
  have h1 := append_session_eq store student date_iso minutes service mode tutor paid_status
    legacy tier rate hr hs hm hstu htut
  have h2 := append_session_eq (store ++ [mkRow student date_iso minutes service mode tutor
      paid_status tier rate (code_serial store student date_iso)])
    student date_iso minutes2 service mode tutor paid_status legacy tier rate hr hs hm hstu htut
  refine ⟨_, mkRow student date_iso minutes service mode tutor paid_status tier rate
      (code_serial store student date_iso),
    (store ++ [mkRow student date_iso minutes service mode tutor paid_status tier rate
      (code_serial store student date_iso)]) ++
      [mkRow student date_iso minutes2 service mode tutor paid_status tier rate
        (code_serial store student date_iso + 1)],
    ⟨tier, rate, amount_due_of minutes2 rate paid_status,
      tutor_pay_of minutes2 rate tutor paid_status,
      "Pay " ++ tutor ++ " $" ++ format2 (tutor_pay_of minutes2 rate tutor paid_status)⟩,
    mkRow student date_iso minutes2 service mode tutor paid_status tier rate
      (code_serial store student date_iso + 1),
    h1, rfl, ?_⟩
  intro htrim
  have hcount : code_serial (store ++ [mkRow student date_iso minutes service mode tutor
      paid_status tier rate (code_serial store student date_iso)]) student date_iso =
      code_serial store student date_iso + 1 := by
    unfold code_serial
    rw [List.countP_append]
    simp [List.countP_cons, mkRow, htrim]
  rw [hcount] at h2
  exact ⟨h2, rfl, rfl⟩

/-- Witness for C4's amended theorem: two consecutive appends for `"Alex"`
on `"2025-03-01"` starting from the empty store. -/
theorem append_session_id_spec_witness :
    ∃ res r store2 res2 r2,
      append_session [] "Alex" "2025-03-01" 60 "K–12 Tutoring" "Online" "Aryan" "Not Paid" []
        = some (res, [] ++ [r]) ∧
      r.id = mkId "Alex" "2025-03-01" (code_serial [] "Alex" "2025-03-01") ∧
      (pyStrip "Alex" = "Alex" →
        append_session ([] ++ [r]) "Alex" "2025-03-01" 30 "K–12 Tutoring" "Online" "Aryan"
            "Not Paid" [] = some (res2, store2) ∧
        store2 = (([] : List Rec) ++ [r]) ++ [r2] ∧
        r2.id = mkId "Alex" "2025-03-01" (code_serial [] "Alex" "2025-03-01" + 1)) :=
  append_session_id_spec [] "Alex" "2025-03-01" 60 30 "K–12 Tutoring" "Online" "Aryan"
    "Not Paid" [] (by decide) (by decide) (by decide) (by decide)

/-- C8: a student whose trimmed, lowercased name is in the legacy set is
priced at tier `"Legacy"` with the flat per-service legacy rate, and the
result — rate and, through `append_session`, `amount_due` — does not
depend on the mode; any other student is priced at tier `"New"` with the
per-service-per-mode rate.  In particular `"Brie"` with legacy set
`{"brie"}` gets rate 25 for `"K–12 Tutoring"` whatever the mode. -/
theorem get_rate_legacy_spec (student service mode : String) (legacy : List String)
    (hs : (LEGACY_RATES service).isSome = true) :
    (pyLower (pyStrip student) ∈ legacy.map (fun x => pyLower (pyStrip x)) →
      get_rate_for_student student service mode legacy =
        (LEGACY_RATES service).map (fun r => ("Legacy", r)) ∧
      (∀ mode', get_rate_for_student student service mode' legacy =
        get_rate_for_student student service mode legacy) ∧
      (∀ (store : List Rec) (date_iso : String) (minutes : ℤ) (tutor paid_status : String),
        student ≠ "" → tutor ≠ "" →
        ((append_session store student date_iso minutes service "Online" tutor paid_status
            legacy).map fun p => p.1.amount_due) =
        ((append_session store student date_iso minutes service "In-Person" tutor paid_status
            legacy).map fun p => p.1.amount_due))) ∧
    (pyLower (pyStrip student) ∉ legacy.map (fun x => pyLower (pyStrip x)) →
      get_rate_for_student student service mode legacy =
        (NEW_RATES service mode).map (fun r => ("New", r))) ∧
    (∀ mode', get_rate_for_student "Brie" "K–12 Tutoring" mode' ["brie"]
      = some ("Legacy", 25)) := by
  refine ⟨?_, ?_, ?_⟩
  · intro hmem
    refine ⟨by rw [get_rate_for_student, if_pos hmem], fun mode' => ?_, ?_⟩
    · rw [get_rate_for_student, if_pos hmem, get_rate_for_student, if_pos hmem]
    · intro store date_iso minutes tutor paid_status hstu htut
      rcases Option.isSome_iff_exists.1 hs with ⟨r, hrle⟩
      have hr1 : get_rate_for_student student service "Online" legacy = some ("Legacy", r) := by
        rw [get_rate_for_student, if_pos hmem, hrle]
        rfl
      have hr2 : get_rate_for_student student service "In-Person" legacy = some ("Legacy", r) := by
        rw [get_rate_for_student, if_pos hmem, hrle]
        rfl
      rw [append_session_eq store student date_iso minutes service "Online" tutor paid_status
          legacy "Legacy" r hr1 hs (by decide) hstu htut,
        append_session_eq store student date_iso minutes service "In-Person" tutor paid_status
          legacy "Legacy" r hr2 hs (by decide) hstu htut]
      rfl
  · intro hmem
    rw [get_rate_for_student, if_neg hmem]
  · intro mode'
    rw [get_rate_for_student, if_pos (by decide)]
    rfl

/-- Witness for C8 at the spec's example inputs. -/
theorem get_rate_legacy_spec_witness :
    get_rate_for_student "Brie" "K–12 Tutoring" "Online" ["brie"] = some ("Legacy", 25) ∧
    get_rate_for_student "Brie" "K–12 Tutoring" "In-Person" ["brie"] = some ("Legacy", 25) := by
  have h := get_rate_legacy_spec "Brie" "K–12 Tutoring" "Online" ["brie"] (by decide)
  exact ⟨h.2.2 "Online", h.2.2 "In-Person"⟩

end Billing
